import Mathlib

/-!
Verification of the legacy-alerting migration engine
(pkg/services/ngalert/migration of Stefan-Mitic/grafana).

The Go source is shallowly embedded: JSON payloads become an inductive
`Json` type, Go maps of `string -> json.RawMessage` become association
lists, Go strings (byte slices) become `List Char` where byte-level
slicing matters, and Go slice expressions that can panic are modelled
as `Option`-returning operations that return `none` exactly when the
Go program would panic with an out-of-bounds index.
-/

namespace GrafanaMigration

/-- A JSON value, as produced by Go's encoding/json. Numbers are modelled
as integers; none of the verified code paths inspects fractional values. -/
inductive Json where
  | null
  | bool (b : Bool)
  | num (n : Int)
  | str (s : String)
  | arr (elems : List Json)
  | obj (fields : List (String × Json))

/-- Lookup in a Go map modelled as an association list (first match). -/
def lookupKey (k : String) : List (String × Json) → Option Json
  | [] => none
  | p :: rest => if p.1 = k then some p.2 else lookupKey k rest

/-- `delete(m, k)` on a Go map: remove the binding for `k`. -/
def eraseKey (k : String) : List (String × Json) → List (String × Json)
  | [] => []
  | p :: rest => if p.1 = k then eraseKey k rest else p :: eraseKey k rest

/-- `m[k] = v` on a Go map: replace the value bound to `k`, or append. -/
def setKey (k : String) (v : Json) (m : List (String × Json)) : List (String × Json) :=
  if m.any (fun p => p.1 = k) then
    m.map (fun p => if p.1 = k then (k, v) else p)
  else
    m ++ [(k, v)]

/-- `json.Unmarshal(raw, &b)` for `b : bool`. Go succeeds on `true`/`false`,
and also on `null` (a no-op that leaves the zero value `false`); every other
JSON value is a type error. `none` models the unmarshal error. -/
def unmarshalBool : Json → Option Bool
  | .bool b => some b
  | .null => some false
  | _ => none

/-- `json.Unmarshal(ds, &datasource)` for `struct { Type string }`:
succeeds on an object (taking the `"type"` field, which must be a string
or `null`/absent, both yielding the zero value `""`) and on `null`;
fails on any other JSON value. `none` models the unmarshal error. -/
def parseDatasourceType : Json → Option String
  | .obj fields =>
    match lookupKey "type" fields with
    | some (.str s) => some s
    | some .null => some ""
    | some _ => none
    | none => some ""
  | .null => some ""
  | _ => none

/-- pkg/services/ngalert/migration/ualert.go: the reserved datasource UID
identifying expression queries. -/
def expressionDatasourceUID : String := "__expr__"

/-- alert_rule.go `isPrometheusQuery`: reports whether the query payload is
for a Prometheus datasource, with the same three error cases as the source
(missing `datasource` field, unparsable datasource, empty `type`). -/
def isPrometheusQuery (queryData : List (String × Json)) : Except String Bool :=
  match lookupKey "datasource" queryData with
  | none => .error "missing datasource field"
  | some ds =>
    match parseDatasourceType ds with
    | none => .error "failed to parse datasource"
    | some t => if t = "" then .error "missing type field" else .ok (t = "prometheus")

/-- alert_rule.go `fixGraphiteReferencedSubQueries`: if a `targetFull` field
exists, delete it and overwrite `target` with its value. -/
def fixGraphiteReferencedSubQueries (queryData : List (String × Json)) : List (String × Json) :=
  match lookupKey "targetFull" queryData with
  | some fullQuery => setKey "target" fullQuery (eraseKey "targetFull" queryData)
  | none => queryData

/-- The parsed `instant` flag of a query payload: absent means the Go zero
value `false`; `none` is an unmarshal error. -/
def instantFlag (queryData : List (String × Json)) : Option Bool :=
  match lookupKey "instant" queryData with
  | some raw => unmarshalBool raw
  | none => some false

/-- The parsed `range` flag of a query payload: absent means the Go zero
value `false`; `none` is an unmarshal error. -/
def rangeFlag (queryData : List (String × Json)) : Option Bool :=
  match lookupKey "range" queryData with
  | some raw => unmarshalBool raw
  | none => some false

/-- alert_rule.go `fixPrometheusBothTypeQuery`: parse the `instant` and
`range` flags (absent means the zero value `false`; an unparsable flag
returns the payload untouched), and when both are true on a confirmed
Prometheus payload, force `instant` to `false`. -/
def fixPrometheusBothTypeQuery (queryData : List (String × Json)) : List (String × Json) :=
  match instantFlag queryData with
  | none => queryData
  | some instant =>
    match rangeFlag queryData with
    | none => queryData
    | some rng =>
      if !instant || !rng then queryData
      else
        match isPrometheusQuery queryData with
        | .error _ => queryData
        | .ok isProm =>
          if !isProm then queryData
          else setKey "instant" (.bool false) queryData

/-- One element of `ngmodels.AlertRule.Data`: an alert query carrying its
datasource UID and its JSON model payload. -/
structure AlertQuery where
  datasourceUID : String
  model : Json

/-- The per-query body of alert_rule.go `migrateAlertRuleQueries`:
unmarshal the model into a map (Go also accepts `null`, yielding a nil map
on which every subsequent operation is a no-op and which re-marshals to
`null`), delete `hide`, apply the graphite and Prometheus fixups, and
re-marshal. Any other non-object model is a fatal unmarshal error. -/
def migrateQueryModel (model : Json) : Except String Json :=
  match model with
  | .obj fields =>
    .ok (.obj (fixPrometheusBothTypeQuery (fixGraphiteReferencedSubQueries (eraseKey "hide" fields))))
  | .null => .ok .null
  | _ => .error "json: cannot unmarshal into map"

/-- One iteration of the loop in alert_rule.go `migrateAlertRuleQueries`:
expression queries (reserved datasource UID) are passed through unchanged. -/
def migrateQuery (d : AlertQuery) : Except String AlertQuery :=
  if d.datasourceUID = expressionDatasourceUID then .ok d
  else
    match migrateQueryModel d.model with
    | .ok m => .ok { d with model := m }
    | .error e => .error e

/-- alert_rule.go `migrateAlertRuleQueries`: rewrite every query in order,
aborting on the first error. -/
def migrateAlertRuleQueries (data : List AlertQuery) : Except String (List AlertQuery) :=
  match data with
  | [] => .ok []
  | d :: rest =>
    match migrateQuery d with
    | .error e => .error e
    | .ok d' =>
      match migrateAlertRuleQueries rest with
      | .error e => .error e
      | .ok rest' => .ok (d' :: rest')

/-- ngalert/models rule no-data states (OK / NoData / Alerting). -/
inductive NoDataState where
  | OK
  | NoData
  | Alerting
deriving DecidableEq

/-- ngalert/models rule execution-error states (OK / Alerting / Error). -/
inductive ExecutionErrorState where
  | OkErrState
  | AlertingErrState
  | ErrorErrState
deriving DecidableEq

/-- Modelled from the spec: the legacy `NoDataOption` string constants of
pkg/services/alerting/models (not under src/); the spec's no-data mapping
names them as `ok`, `no_data`, `alerting` and `keep_state`. -/
def NoDataSetOK : String := "ok"

def NoDataSetNoData : String := "no_data"

def NoDataSetAlerting : String := "alerting"

def NoDataKeepState : String := "keep_state"

/-- Modelled from the spec: the legacy `ExecutionErrorOption` string
constants of pkg/services/alerting/models (not under src/); the spec's
exec-error mapping names them as `alerting`, `keep_state` and `ok`. -/
def ExecutionErrorSetAlerting : String := "alerting"

def ExecutionErrorKeepState : String := "keep_state"

def ExecutionErrorSetOk : String := "ok"

/-- alert_rule.go `transNoData`: translate a legacy no-data state string,
defaulting to `NoData` (with only a logged warning) on anything
unrecognized. -/
def transNoData (s : String) : NoDataState :=
  if s = NoDataSetOK then .OK
  else if s = "" ∨ s = NoDataSetNoData then .NoData
  else if s = NoDataSetAlerting then .Alerting
  else if s = NoDataKeepState then .NoData
  else .NoData

/-- alert_rule.go `transExecErr`: translate a legacy execution-error state
string, defaulting to `Error` (with only a logged warning) on anything
unrecognized. -/
def transExecErr (s : String) : ExecutionErrorState :=
  if s = "" ∨ s = ExecutionErrorSetAlerting then .AlertingErrState
  else if s = ExecutionErrorKeepState then .ErrorErrState
  else if s = ExecutionErrorSetOk then .OkErrState
  else .ErrorErrState

/-- A Go string viewed as its byte sequence: `len` and the slice
expressions used by the migration code are byte-level, so we model each
byte as one list element. -/
abbrev GoStr := List Char

/-- Modelled from the spec: `store.AlertDefinitionMaxTitleLength`, the
max-title-length constant of the ngalert store package (not under src/);
the spec fixes only that such a cap exists, so the upstream value is used. -/
def AlertDefinitionMaxTitleLength : Nat := 190

/-- alert_rule.go `truncateRuleName`: truncate a legacy alert name to the
maximum allowed title length. -/
def truncateRuleName (daName : GoStr) : GoStr :=
  if daName.length > AlertDefinitionMaxTitleLength then
    daName.take AlertDefinitionMaxTitleLength
  else daName

/-- alert_rule.go `ruleAdjustInterval`: clamp a legacy frequency to the
10-second base scheduler granularity. `Int.tmod` is Go's `%` (truncated
remainder). -/
def ruleAdjustInterval (freq : Int) : Int :=
  let baseFreq : Int := 10
  if freq ≤ baseFreq then 10
  else freq - Int.tmod freq baseFreq

/-- `strings.ToLower`, element-wise on the modelled string. -/
def goToLower (s : GoStr) : GoStr := s.map Char.toLower

/-- The Go slice expression `s[:n]` on a string: defined for
`0 ≤ n ≤ len(s)`, a panic (modelled as `none`) otherwise. -/
def goSliceTo (s : GoStr) (n : Int) : Option GoStr :=
  if 0 ≤ n ∧ n ≤ (s.length : Int) then some (s.take n.toNat) else none

/-- models.go `Deduplicator`: a seen-set with optional case folding and an
optional maximum length (`maxLen` is a Go `int`). -/
structure Deduplicator where
  set : List GoStr
  caseInsensitive : Bool
  maxLen : Int

/-- models.go `Deduplicator.contains`: case-fold if configured, truncate to
`maxLen` when configured and exceeded, and test seen-set membership. The
slice is modelled bounds-checked, so `none` would mean a Go panic. -/
def Deduplicator.contains (s : Deduplicator) (u : GoStr) : Option Bool :=
  let dedup := if s.caseInsensitive then goToLower u else u
  if 0 < s.maxLen ∧ s.maxLen < (dedup.length : Int) then
    (goSliceTo dedup s.maxLen).map (fun t => decide (t ∈ s.set))
  else
    some (decide (dedup ∈ s.set))

/-- models.go `Deduplicator.deduplicate`: append an underscore and the
freshly generated short UID (`uid` stands for the `util.GenerateShortUID()`
result), truncating the candidate first when the combination would exceed
`maxLen`. The slice is modelled bounds-checked, so `none` would be a panic. -/
def Deduplicator.deduplicate (s : Deduplicator) (dedup uid : GoStr) : Option GoStr :=
  if 0 < s.maxLen ∧ s.maxLen < ((dedup.length : Int) + 1 + (uid.length : Int)) then
    (goSliceTo dedup (s.maxLen - 1 - (uid.length : Int))).map (fun t => t ++ '_' :: uid)
  else
    some (dedup ++ '_' :: uid)

/-- models.go `Deduplicator.add`: record a (possibly case-folded) string in
the seen-set. -/
def Deduplicator.add (s : Deduplicator) (uid : GoStr) : Deduplicator :=
  let dedup := if s.caseInsensitive then goToLower uid else uid
  { s with set := dedup :: s.set }

/-- Lookup in a Go `map[string]string` modelled as an association list. -/
def lookupStr (k : String) : List (String × String) → Option String
  | [] => none
  | p :: rest => if p.1 = k then some p.2 else lookupStr k rest

/-- `m[k] = v` on a Go `map[string]string`. -/
def setStr (k v : String) (m : List (String × String)) : List (String × String) :=
  if m.any (fun p => p.1 = k) then
    m.map (fun p => if p.1 = k then (k, v) else p)
  else
    m ++ [(k, v)]

/-- channel.go `secureKeysToMigrate`: the fixed channel-type to key-list
table of settings that historically moved into secure settings. -/
def secureKeysToMigrate (chanType : String) : List String :=
  if chanType = "slack" then ["url", "token"]
  else if chanType = "pagerduty" then ["integrationKey"]
  else if chanType = "webhook" then ["password"]
  else if chanType = "prometheus-alertmanager" then ["basicAuthPassword"]
  else if chanType = "opsgenie" then ["apiKey"]
  else if chanType = "telegram" then ["bottoken"]
  else if chanType = "line" then ["token"]
  else if chanType = "pushover" then ["apiToken", "userKey"]
  else if chanType = "threema" then ["api_secret"]
  else []

/-- simplejson's `Get(k).MustString()`: the string value when the field is
a string, the default `""` otherwise (including when the field is absent). -/
def mustString : Option Json → String
  | some (.str s) => s
  | _ => ""

/-- The Go test `v, ok := newSecureSettings[k]; ok && v != ""`: whether the
decrypted secure settings already hold a non-empty value for `k`. -/
def secureHasValue (k : String) (secure : List (String × String)) : Bool :=
  match lookupStr k secure with
  | some v => v ≠ ""
  | none => false

/-- The per-key loop of channel.go `migrateSettingsToSecureSettings`: for
each listed key, skip it when the decrypted secure settings already hold a
non-empty value; otherwise, when the general settings hold a non-empty
string for it, move that plaintext into the secure map and delete it from
the general settings. -/
def moveSecureKeys :
    List String → List (String × Json) → List (String × String) →
    List (String × Json) × List (String × String)
  | [], settings, secure => (settings, secure)
  | k :: ks, settings, secure =>
    if secureHasValue k secure then moveSecureKeys ks settings secure
    else if mustString (lookupKey k settings) ≠ "" then
      moveSecureKeys ks (eraseKey k settings) (setStr k (mustString (lookupKey k settings)) secure)
    else moveSecureKeys ks settings secure

/-- channel.go `migrateSettingsToSecureSettings`: `secureDecrypted` is the
already-decrypted legacy secure settings (`secureSettings.Decrypt()`), and
`encrypt` stands for the encryption collaborator applied by
`encryptSecureSettings` to every resulting secure value. A non-object
settings blob makes `settings.Map()` fail, which is the error case. -/
def migrateSettingsToSecureSettings (encrypt : String → String) (chanType : String)
    (settings : Json) (secureDecrypted : List (String × String)) :
    Except String (List (String × Json) × List (String × String)) :=
  match settings with
  | .obj settingsMap =>
    let moved := moveSecureKeys (secureKeysToMigrate chanType) settingsMap secureDecrypted
    .ok (moved.1, moved.2.map (fun p => (p.1, encrypt p.2)))
  | _ => .error "cannot convert settings to map"

/-- One entry of `DashboardUpgrade.MigratedAlerts`: the migrated rule's UID
when a rule was attached (`pair.AlertRule != nil`), which may be empty. -/
structure AlertPairRef where
  ruleUID : Option String

/-- The fields of `migmodels.DashboardUpgrade` read by
`cleanupDashboardAlerts`. -/
structure DashboardUpgradeRef where
  migratedAlerts : List AlertPairRef
  folderUID : String
  newFolderUID : String

/-- The store operations issued by `cleanupDashboardAlerts`, together with
the in-memory created-folders ledger list it leaves behind. -/
structure CleanupEffects where
  deletedRuleUIDs : List String
  deletedFolderUIDs : List String
  createdFolders : List String

/-- alert_rule.go `OrgMigration.cleanupDashboardAlerts`: delete the rules
recorded in the dashboard's ledger entry, then delete its new folder only
when that folder differs from the original one and its UID is found in (and
removed from) the in-memory `state.CreatedFolders` list — the explicit
safety check against deleting folders the migration did not create. -/
def cleanupDashboardAlerts (createdFolders : List String) (du : Option DashboardUpgradeRef) :
    CleanupEffects :=
  match du with
  | none => ⟨[], [], createdFolders⟩
  | some du =>
    let ruleUids := du.migratedAlerts.filterMap fun p =>
      match p.ruleUID with
      | some u => if u ≠ "" then some u else none
      | none => none
    if du.newFolderUID ≠ "" ∧ du.newFolderUID ≠ du.folderUID then
      if du.newFolderUID ∈ createdFolders then
        ⟨ruleUids, [du.newFolderUID], createdFolders.erase du.newFolderUID⟩
      else
        ⟨ruleUids, [], createdFolders⟩
    else
      ⟨ruleUids, [], createdFolders⟩

/-- store (src/unnamed/part_001) `migrationStore.DeleteMigratedFolders`:
read the persisted org summary and issue one folder deletion per UID in its
created-folders list, in order (an early per-delete error only truncates
this call list to a prefix). -/
def deleteMigratedFoldersCalls (summaryCreatedFolders : List String) : List String :=
  summaryCreatedFolders

/-- The fixed safeguard error of service.go (`ForceMigrationError`). -/
def ForceMigrationErrorText : String :=
  "Grafana has already been migrated to Unified Alerting. Any alert rules created while using Unified Alerting will be deleted by rolling back. Set force_migration=true in your grafana.ini and restart Grafana to roll back and delete Unified Alerting configuration data."

/-- The two mutating store operations `MigrationService.Run` can order
inside its transaction. -/
inductive RunStoreOp where
  | revertAllOrgs
  | migrateAllOrgs
deriving DecidableEq

/-- The transaction body of service.go `MigrationService.Run`: decide,
from the persisted migrated flag, the unified-alerting toggle, the legacy
`setting.AlertingEnabled` pointer and the force-migration flag, which store
operations to issue and whether to fail with the fixed safeguard error.
An error return rolls the surrounding transaction back. -/
def runMigrationBody (migrated uaEnabled : Bool) (alertingEnabled : Option Bool)
    (forceMigration : Bool) : Except String Unit × List RunStoreOp :=
  if migrated = uaEnabled then (.ok (), [])
  else if migrated then
    if alertingEnabled = some false then (.ok (), [])
    else if ¬ forceMigration then (.error ForceMigrationErrorText, [])
    else (.ok (), [.revertAllOrgs])
  else (.ok (), [.migrateAllOrgs])

/-- The identity of a migrated rule as seen by the insert loop of
ualert.go `migrateAndSaveAlerts`: an identifier for the store oracle plus
the title the dedup retry rewrites. -/
structure RuleRef where
  id : Nat
  title : GoStr
deriving DecidableEq

/-- One ledger pair in the insert loop (`pair.AlertRule` may be nil for
alerts whose migration already failed). -/
structure PairRef where
  rule : Option RuleRef
deriving DecidableEq

/-- The store's response to one `InsertAlertRules` call. -/
inductive InsertOutcome where
  | ok
  | uniqueViolation
  | otherError
deriving DecidableEq

/-- The result of the insert loop: rules the store accepted (these inserts
have been issued and are not undone by the function itself), the full
ordered trace of insert calls, and either the processed pairs or the error
that aborts `migrateAndSaveAlerts`. -/
structure InsertLoopResult where
  inserted : List RuleRef
  calls : List RuleRef
  outcome : Except String (List PairRef)

/-- The insertion loop of ualert.go `migrateAndSaveAlerts` (one
`InsertAlertRules` call per pair): on a unique-title constraint violation
the title is rewritten once via `dedupSet.deduplicate` and the insert is
retried exactly once; any other error, or a failed retry, returns an error
for the whole call. `insert` is the store oracle, `uids i` the
`util.GenerateShortUID()` value a retry of pair `i` would consume, and
`dedupSet` the folder's title deduplicator; `none` models a Go panic inside
`deduplicate`. -/
def insertRulesLoop (insert : RuleRef → InsertOutcome) (uids : Nat → GoStr)
    (dedupSet : Deduplicator) : List PairRef → Nat → Option InsertLoopResult
  | [], _ => some ⟨[], [], .ok []⟩
  | p :: rest, i =>
    match p.rule with
    | none =>
      (insertRulesLoop insert uids dedupSet rest (i + 1)).map fun r =>
        ⟨r.inserted, r.calls, r.outcome.map (p :: ·)⟩
    | some rule =>
      match insert rule with
      | .ok =>
        (insertRulesLoop insert uids dedupSet rest (i + 1)).map fun r =>
          ⟨rule :: r.inserted, rule :: r.calls, r.outcome.map (p :: ·)⟩
      | .uniqueViolation =>
        match dedupSet.deduplicate rule.title (uids i) with
        | none => none
        | some dedupedName =>
          let rule' : RuleRef := { rule with title := dedupedName }
          match insert rule' with
          | .ok =>
            (insertRulesLoop insert uids dedupSet rest (i + 1)).map fun r =>
              ⟨rule' :: r.inserted, rule :: rule' :: r.calls,
                r.outcome.map (PairRef.mk (some rule') :: ·)⟩
          | _ =>
            some ⟨[], [rule, rule'], .error "failed to insert alert rules"⟩
      | .otherError =>
        some ⟨[], [rule], .error "failed to insert alert rules"⟩

/-- A concrete store oracle: every insert of the rule with id 1 hits the
unique-title constraint (even after its title is rewritten), every other
insert succeeds. -/
def insertOracle (r : RuleRef) : InsertOutcome :=
  if r.id = 1 then .uniqueViolation else .ok

/-- A concrete `GenerateShortUID` stream producing the one-byte suffix `u`. -/
def uidStream (_ : Nat) : GoStr := ['u']

/-- The title deduplicator of a fresh folder, with the configured title cap. -/
def titleDedup : Deduplicator :=
  ⟨[], false, (AlertDefinitionMaxTitleLength : Int)⟩

/-- Two ledger pairs: the first rule keeps violating the unique-title
constraint, the second would insert fine. -/
def twoPairBatch : List PairRef :=
  [⟨some ⟨1, ['a']⟩⟩, ⟨some ⟨2, ['b']⟩⟩]

/-- A concrete Prometheus Both-type query payload. -/
def promBothPayload : List (String × Json) :=
  [("datasource", .obj [("type", .str "prometheus")]),
   ("instant", .bool true), ("range", .bool true)]

/-- A concrete no-op query batch: one expression query and one plain query
with no hidden flag, no sub-query and no Prometheus Both flags. -/
def noopQueryBatch : List AlertQuery :=
  [⟨expressionDatasourceUID, .obj [("hide", .bool true)]⟩,
   ⟨"ds1", .obj [("target", .str "t"), ("refId", .str "A")]⟩]

/-! Association-list lemmas for the Go map operations. -/

theorem lookupKey_cons (k : String) (p : String × Json) (m : List (String × Json)) :
    lookupKey k (p :: m) = if p.1 = k then some p.2 else lookupKey k m := rfl

theorem lookupKey_append (k : String) (a b : List (String × Json)) :
    lookupKey k (a ++ b) =
      match lookupKey k a with
      | some v => some v
      | none => lookupKey k b := by
  induction a with
  | nil => rfl
  | cons p rest ih =>
    by_cases hp : p.1 = k
    · simp [lookupKey_cons, hp]
    · simpa [lookupKey_cons, hp] using ih

theorem lookupKey_eq_none_of_any_eq_false (k : String) (m : List (String × Json))
    (h : m.any (fun p => decide (p.1 = k)) = false) : lookupKey k m = none := by
  induction m with
  | nil => rfl
  | cons p rest ih =>
    simp only [List.any_cons, Bool.or_eq_false_iff, decide_eq_false_iff_not] at h
    simp only [lookupKey_cons, if_neg h.1]
    exact ih h.2

theorem lookupKey_mapReplace_self (k : String) (v : Json) (m : List (String × Json))
    (h : m.any (fun p => decide (p.1 = k)) = true) :
    lookupKey k (m.map (fun p => if p.1 = k then (k, v) else p)) = some v := by
  induction m with
  | nil => simp at h
  | cons p rest ih =>
    by_cases hp : p.1 = k
    · simp [lookupKey_cons, hp]
    · simp only [List.any_cons, Bool.or_eq_true, decide_eq_true_eq] at h
      rcases h with h | h
      · exact absurd h hp
      · simp only [List.map_cons, if_neg hp, lookupKey_cons, hp, if_false]
        exact ih h

theorem lookupKey_mapReplace_ne (k k' : String) (v : Json) (m : List (String × Json))
    (hne : k' ≠ k) :
    lookupKey k' (m.map (fun p => if p.1 = k then (k, v) else p)) = lookupKey k' m := by
  induction m with
  | nil => rfl
  | cons p rest ih =>
    by_cases hp : p.1 = k
    · have h1 : ¬(p.1 = k') := by rw [hp]; exact fun hk => hne hk.symm
      simp only [List.map_cons, if_pos hp, lookupKey_cons]
      rw [if_neg (show ¬(k = k') from fun hk => hne hk.symm), if_neg h1]
      exact ih
    · simp only [List.map_cons, if_neg hp, lookupKey_cons]
      by_cases hp' : p.1 = k'
      · simp [hp']
      · rw [if_neg hp', if_neg hp']
        exact ih

theorem lookupKey_setKey_self (k : String) (v : Json) (m : List (String × Json)) :
    lookupKey k (setKey k v m) = some v := by
  unfold setKey
  by_cases h : m.any (fun p => decide (p.1 = k)) = true
  · rw [if_pos h]
    exact lookupKey_mapReplace_self k v m h
  · rw [if_neg h, lookupKey_append]
    have hnone : lookupKey k m = none := by
      refine lookupKey_eq_none_of_any_eq_false k m ?_
      cases hx : m.any (fun p => decide (p.1 = k)) with
      | false => rfl
      | true => exact absurd hx h
    rw [hnone]
    simp [lookupKey_cons]

theorem lookupKey_setKey_ne (k k' : String) (v : Json) (m : List (String × Json))
    (hne : k' ≠ k) : lookupKey k' (setKey k v m) = lookupKey k' m := by
  unfold setKey
  by_cases h : m.any (fun p => decide (p.1 = k)) = true
  · rw [if_pos h]
    exact lookupKey_mapReplace_ne k k' v m hne
  · rw [if_neg h, lookupKey_append]
    cases hm : lookupKey k' m with
    | some v' => rfl
    | none =>
      simp only [lookupKey_cons]
      rw [if_neg (show ¬(k = k') from fun hk => hne hk.symm)]
      rfl

theorem eraseKey_cons (k : String) (p : String × Json) (m : List (String × Json)) :
    eraseKey k (p :: m) = if p.1 = k then eraseKey k m else p :: eraseKey k m := rfl

theorem lookupKey_eraseKey_self (k : String) (m : List (String × Json)) :
    lookupKey k (eraseKey k m) = none := by
  induction m with
  | nil => rfl
  | cons p rest ih =>
    by_cases hp : p.1 = k
    · rw [eraseKey_cons, if_pos hp]
      exact ih
    · rw [eraseKey_cons, if_neg hp, lookupKey_cons, if_neg hp]
      exact ih

theorem lookupKey_eraseKey_ne (k k' : String) (m : List (String × Json))
    (hne : k' ≠ k) : lookupKey k' (eraseKey k m) = lookupKey k' m := by
  induction m with
  | nil => rfl
  | cons p rest ih =>
    by_cases hp : p.1 = k
    · have h1 : ¬(p.1 = k') := by rw [hp]; exact fun hk => hne hk.symm
      rw [eraseKey_cons, if_pos hp, lookupKey_cons, if_neg h1]
      exact ih
    · rw [eraseKey_cons, if_neg hp, lookupKey_cons, lookupKey_cons]
      by_cases hp' : p.1 = k'
      · rw [if_pos hp', if_pos hp']
      · rw [if_neg hp', if_neg hp']
        exact ih

theorem eraseKey_eq_self_of_lookup_none (k : String) (m : List (String × Json))
    (h : lookupKey k m = none) : eraseKey k m = m := by
  induction m with
  | nil => rfl
  | cons p rest ih =>
    by_cases hp : p.1 = k
    · rw [lookupKey_cons, if_pos hp] at h
      exact absurd h (by simp)
    · rw [lookupKey_cons, if_neg hp] at h
      rw [eraseKey_cons, if_neg hp, ih h]

theorem lookupStr_cons (k : String) (p : String × String) (m : List (String × String)) :
    lookupStr k (p :: m) = if p.1 = k then some p.2 else lookupStr k m := rfl

theorem lookupStr_append (k : String) (a b : List (String × String)) :
    lookupStr k (a ++ b) =
      match lookupStr k a with
      | some v => some v
      | none => lookupStr k b := by
  induction a with
  | nil => rfl
  | cons p rest ih =>
    by_cases hp : p.1 = k
    · simp [lookupStr_cons, hp]
    · simpa [lookupStr_cons, hp] using ih

theorem lookupStr_eq_none_of_any_eq_false (k : String) (m : List (String × String))
    (h : m.any (fun p => decide (p.1 = k)) = false) : lookupStr k m = none := by
  induction m with
  | nil => rfl
  | cons p rest ih =>
    simp only [List.any_cons, Bool.or_eq_false_iff, decide_eq_false_iff_not] at h
    simp only [lookupStr_cons, if_neg h.1]
    exact ih h.2

theorem lookupStr_mapReplace_self (k v : String) (m : List (String × String))
    (h : m.any (fun p => decide (p.1 = k)) = true) :
    lookupStr k (m.map (fun p => if p.1 = k then (k, v) else p)) = some v := by
  induction m with
  | nil => simp at h
  | cons p rest ih =>
    by_cases hp : p.1 = k
    · simp [lookupStr_cons, hp]
    · simp only [List.any_cons, Bool.or_eq_true, decide_eq_true_eq] at h
      rcases h with h | h
      · exact absurd h hp
      · simp only [List.map_cons, if_neg hp, lookupStr_cons, hp, if_false]
        exact ih h

theorem lookupStr_mapReplace_ne (k k' v : String) (m : List (String × String))
    (hne : k' ≠ k) :
    lookupStr k' (m.map (fun p => if p.1 = k then (k, v) else p)) = lookupStr k' m := by
  induction m with
  | nil => rfl
  | cons p rest ih =>
    by_cases hp : p.1 = k
    · have h1 : ¬(p.1 = k') := by rw [hp]; exact fun hk => hne hk.symm
      simp only [List.map_cons, if_pos hp, lookupStr_cons]
      rw [if_neg (show ¬(k = k') from fun hk => hne hk.symm), if_neg h1]
      exact ih
    · simp only [List.map_cons, if_neg hp, lookupStr_cons]
      by_cases hp' : p.1 = k'
      · simp [hp']
      · rw [if_neg hp', if_neg hp']
        exact ih

theorem lookupStr_setStr_self (k v : String) (m : List (String × String)) :
    lookupStr k (setStr k v m) = some v := by
  unfold setStr
  by_cases h : m.any (fun p => decide (p.1 = k)) = true
  · rw [if_pos h]
    exact lookupStr_mapReplace_self k v m h
  · rw [if_neg h, lookupStr_append]
    have hnone : lookupStr k m = none := by
      refine lookupStr_eq_none_of_any_eq_false k m ?_
      cases hx : m.any (fun p => decide (p.1 = k)) with
      | false => rfl
      | true => exact absurd hx h
    rw [hnone]
    simp [lookupStr_cons]

theorem lookupStr_setStr_ne (k k' v : String) (m : List (String × String))
    (hne : k' ≠ k) : lookupStr k' (setStr k v m) = lookupStr k' m := by
  unfold setStr
  by_cases h : m.any (fun p => decide (p.1 = k)) = true
  · rw [if_pos h]
    exact lookupStr_mapReplace_ne k k' v m hne
  · rw [if_neg h, lookupStr_append]
    cases hm : lookupStr k' m with
    | some v' => rfl
    | none =>
      simp only [lookupStr_cons]
      rw [if_neg (show ¬(k = k') from fun hk => hne hk.symm)]
      rfl

theorem lookupStr_mapValues (f : String → String) (k : String) (m : List (String × String)) :
    lookupStr k (m.map (fun p => (p.1, f p.2))) = (lookupStr k m).map f := by
  induction m with
  | nil => rfl
  | cons p rest ih =>
    by_cases hp : p.1 = k
    · simp [lookupStr_cons, hp]
    · simpa [lookupStr_cons, hp] using ih

/-! Claim theorems. -/

/-- C6: the legacy no-data state string maps totally: `ok` to OK, empty or
`no_data` to NoData, `alerting` to Alerting, `keep_state` to NoData, and
every other string to NoData without raising an error; the execution-error
state maps empty or `alerting` to Alerting, `keep_state` to Error, `ok` to
OK, and every unrecognized string to Error without error. -/
theorem transNoData_transExecErr_total :
    transNoData "ok" = .OK ∧ transNoData "" = .NoData ∧ transNoData "no_data" = .NoData ∧
    transNoData "alerting" = .Alerting ∧ transNoData "keep_state" = .NoData ∧
    (∀ s : String, s ∉ (["ok", "", "no_data", "alerting", "keep_state"] : List String) →
      transNoData s = .NoData) ∧
    transExecErr "" = .AlertingErrState ∧ transExecErr "alerting" = .AlertingErrState ∧
    transExecErr "keep_state" = .ErrorErrState ∧ transExecErr "ok" = .OkErrState ∧
    (∀ s : String, s ∉ (["", "alerting", "keep_state", "ok"] : List String) →
      transExecErr s = .ErrorErrState) := by
  refine ⟨rfl, rfl, rfl, rfl, rfl, ?_, rfl, rfl, rfl, rfl, ?_⟩
  · intro s hs
    simp only [List.mem_cons, List.not_mem_nil, or_false, not_or] at hs
    obtain ⟨h1, h2, h3, h4, h5⟩ := hs
    simp [transNoData, NoDataSetOK, NoDataSetNoData, NoDataSetAlerting, NoDataKeepState,
      h1, h2, h3, h4, h5]
  · intro s hs
    simp only [List.mem_cons, List.not_mem_nil, or_false, not_or] at hs
    obtain ⟨h1, h2, h3, h4⟩ := hs
    simp [transExecErr, ExecutionErrorSetAlerting, ExecutionErrorKeepState,
      ExecutionErrorSetOk, h1, h2, h3, h4]

/-- Witness for C6 at the concrete unrecognized state string `bogus`. -/
theorem transNoData_transExecErr_total_witness :
    transNoData "bogus" = .NoData ∧ transExecErr "bogus" = .ErrorErrState :=
  ⟨transNoData_transExecErr_total.2.2.2.2.2.1 "bogus" (by decide),
   transNoData_transExecErr_total.2.2.2.2.2.2.2.2.2.2 "bogus" (by decide)⟩

/-- C9: the synthesized rule interval is the legacy frequency rounded down
to the nearest multiple of the 10-second base granularity, and every
frequency at or below 10 yields exactly 10, in exact integer arithmetic. -/
theorem ruleAdjustInterval_rounding (freq : Int) :
    (freq ≤ 10 → ruleAdjustInterval freq = 10) ∧
    (10 < freq →
      ruleAdjustInterval freq = freq - Int.tmod freq 10 ∧
      ruleAdjustInterval freq = 10 * (freq / 10) ∧
      ruleAdjustInterval freq ≤ freq ∧ freq < ruleAdjustInterval freq + 10 ∧
      (10 : Int) ∣ ruleAdjustInterval freq) := by
  constructor
  · intro h
    simp [ruleAdjustInterval, h]
  · intro h
    have hdef : ruleAdjustInterval freq = freq - Int.tmod freq 10 := by
      simp [ruleAdjustInterval, not_le.mpr h]
    have hmod : Int.tmod freq 10 = freq % 10 :=
      Int.tmod_eq_emod (by omega) (by norm_num)
    refine ⟨hdef, ?_, ?_, ?_, ?_⟩ <;> rw [hdef, hmod] <;> omega

/-- Witness for C9 at the concrete frequencies 7 and 25. -/
theorem ruleAdjustInterval_rounding_witness :
    ruleAdjustInterval 7 = 10 ∧ ruleAdjustInterval 25 = 10 * (25 / 10) :=
  ⟨(ruleAdjustInterval_rounding 7).1 (by norm_num),
   ((ruleAdjustInterval_rounding 25).2 (by norm_num)).2.1⟩

/-- C10: `Deduplicator.contains` never slices out of bounds for any input;
`Deduplicator.deduplicate` never slices out of bounds whenever `maxLen`
exceeds the suffix length plus one (as the configured title cap does); and
`ruleAdjustInterval` returns a multiple of 10 that is at least 10 for every
input, including zero and negatives. -/
theorem deduplicator_safety :
    (∀ (s : Deduplicator) (u : GoStr), (s.contains u).isSome = true) ∧
    (∀ (s : Deduplicator) (cand uid : GoStr),
      (uid.length : Int) + 1 < s.maxLen → (s.deduplicate cand uid).isSome = true) ∧
    (∀ freq : Int, 10 ≤ ruleAdjustInterval freq ∧ (10 : Int) ∣ ruleAdjustInterval freq) := by
  refine ⟨?_, ?_, ?_⟩
  · intro s u
    unfold Deduplicator.contains
    by_cases h : 0 < s.maxLen ∧ s.maxLen < (((if s.caseInsensitive then goToLower u else u).length : Int))
    · rw [if_pos h]
      have : goSliceTo (if s.caseInsensitive then goToLower u else u) s.maxLen =
          some ((if s.caseInsensitive then goToLower u else u).take s.maxLen.toNat) := by
        unfold goSliceTo
        rw [if_pos ⟨le_of_lt h.1, le_of_lt h.2⟩]
      rw [this]
      rfl
    · rw [if_neg h]
      rfl
  · intro s cand uid huid
    unfold Deduplicator.deduplicate
    by_cases h : 0 < s.maxLen ∧ s.maxLen < ((cand.length : Int) + 1 + (uid.length : Int))
    · rw [if_pos h]
      have : goSliceTo cand (s.maxLen - 1 - (uid.length : Int)) =
          some (cand.take (s.maxLen - 1 - (uid.length : Int)).toNat) := by
        unfold goSliceTo
        rw [if_pos (by constructor <;> omega)]
      rw [this]
      rfl
    · rw [if_neg h]
      rfl
  · intro freq
    by_cases h : freq ≤ 10
    · simp [ruleAdjustInterval, h]
    · push_neg at h
      have hdef : ruleAdjustInterval freq = freq - Int.tmod freq 10 := by
        simp [ruleAdjustInterval, not_le.mpr h]
      have hmod : Int.tmod freq 10 = freq % 10 :=
        Int.tmod_eq_emod (by omega) (by norm_num)
      rw [hdef, hmod]
      constructor <;> omega

/-- Witness for C10: a concrete deduplicator with the configured title cap,
a candidate longer than the cap, and the negative frequency -3. -/
theorem deduplicator_safety_witness :
    ((titleDedup.contains (List.replicate 200 'a')).isSome = true ∧
      (titleDedup.deduplicate (List.replicate 200 'a') ['u', 'v']).isSome = true) ∧
    (10 ≤ ruleAdjustInterval (-3) ∧ (10 : Int) ∣ ruleAdjustInterval (-3)) :=
  ⟨⟨deduplicator_safety.1 titleDedup (List.replicate 200 'a'),
    deduplicator_safety.2.1 titleDedup (List.replicate 200 'a') ['u', 'v'] (by
      show ((2 : Nat) : Int) + 1 < titleDedup.maxLen
      norm_num [titleDedup, AlertDefinitionMaxTitleLength])⟩,
   deduplicator_safety.2.2 (-3)⟩


/-- C7: a legacy alert name longer than the maximum title length is
truncated to exactly the first max-title-length bytes (shorter names pass
unchanged); and `Deduplicator.deduplicate` with a positive `maxLen` (large
enough to fit the short random suffix) appends an underscore plus the
suffix, truncating the candidate only when the combined length would exceed
the cap, in which case the result has length exactly `maxLen`, and never
returns a string longer than `maxLen`. -/
theorem truncateRuleName_deduplicate_cap (name : GoStr) (s : Deduplicator) (cand uid : GoStr) :
    (name.length > AlertDefinitionMaxTitleLength →
      truncateRuleName name = name.take AlertDefinitionMaxTitleLength ∧
      (truncateRuleName name).length = AlertDefinitionMaxTitleLength) ∧
    (name.length ≤ AlertDefinitionMaxTitleLength → truncateRuleName name = name) ∧
    (0 < s.maxLen → (uid.length : Int) + 1 < s.maxLen →
      ∃ r, s.deduplicate cand uid = some r ∧ (r.length : Int) ≤ s.maxLen ∧
        ((cand.length : Int) + 1 + (uid.length : Int) ≤ s.maxLen →
          r = cand ++ '_' :: uid) ∧
        (s.maxLen < (cand.length : Int) + 1 + (uid.length : Int) →
          r = cand.take ((s.maxLen : Int) - 1 - (uid.length : Int)).toNat ++ '_' :: uid ∧
          (r.length : Int) = s.maxLen)) := by
  refine ⟨?_, ?_, ?_⟩
  · intro h
    refine ⟨by simp [truncateRuleName, h], ?_⟩
    simp only [truncateRuleName, if_pos h, List.length_take]
    omega
  · intro h
    simp [truncateRuleName, not_lt.mpr h]
  · intro h0 huid
    unfold Deduplicator.deduplicate
    by_cases hg : 0 < s.maxLen ∧ s.maxLen < ((cand.length : Int) + 1 + (uid.length : Int))
    · rw [if_pos hg]
      have hb : goSliceTo cand (s.maxLen - 1 - (uid.length : Int)) =
          some (cand.take ((s.maxLen : Int) - 1 - (uid.length : Int)).toNat) := by
        unfold goSliceTo
        rw [if_pos (by constructor <;> omega)]
      rw [hb]
      refine ⟨_, rfl, ?_, ?_, ?_⟩
      · simp only [List.length_append, List.length_take, List.length_cons]
        push_cast
        omega
      · intro hfits
        exact absurd hfits (not_le.mpr hg.2)
      · intro _
        refine ⟨rfl, ?_⟩
        simp only [List.length_append, List.length_take, List.length_cons]
        push_cast
        omega
    · rw [if_neg hg]
      refine ⟨_, rfl, ?_, ?_, ?_⟩
      · simp only [List.length_append, List.length_cons]
        push_cast
        omega
      · intro _
        rfl
      · intro hexceed
        exact absurd ⟨h0, hexceed⟩ hg

/-- Witness for C7: a 200-byte name truncates to the 190-byte cap, and a
short candidate is deduplicated without truncation. -/
theorem truncateRuleName_deduplicate_cap_witness :
    (truncateRuleName (List.replicate 200 'a')).length = AlertDefinitionMaxTitleLength ∧
    titleDedup.deduplicate ['a', 'b'] ['u'] = some (['a', 'b'] ++ '_' :: ['u']) := by
  constructor
  · exact ((truncateRuleName_deduplicate_cap (List.replicate 200 'a') titleDedup
      ['a', 'b'] ['u']).1 (by norm_num [AlertDefinitionMaxTitleLength])).2
  · obtain ⟨r, hr, _, hfits, _⟩ :=
      (truncateRuleName_deduplicate_cap (List.replicate 200 'a') titleDedup ['a', 'b'] ['u']).2.2
        (by norm_num [titleDedup, AlertDefinitionMaxTitleLength])
        (by norm_num [titleDedup, AlertDefinitionMaxTitleLength])
    rw [hr, hfits (by norm_num [titleDedup, AlertDefinitionMaxTitleLength])]

/-- C2: when the ledger says the org is migrated, unified alerting is off
(the configuration validated by the surrounding system makes this the case
exactly when legacy alerting is still enabled), legacy alerting has not
been disabled, and the force-migration flag is unset, the `Run` transaction
body returns the fixed `ForceMigrationError` and issues no store
operations at all — in particular no revert — so the rolled-back
transaction commits nothing. -/
theorem run_force_revert_guard (migrated uaEnabled : Bool) (alertingEnabled : Option Bool)
    (force : Bool) (hmig : migrated = true) (hua : uaEnabled = false)
    (hleg : alertingEnabled ≠ some false) (hforce : force = false) :
    runMigrationBody migrated uaEnabled alertingEnabled force =
      (.error ForceMigrationErrorText, []) := by
  subst hmig
  subst hua
  subst hforce
  simp [runMigrationBody, hleg]

/-- Witness for C2: migrated org, unified alerting off, legacy alerting
explicitly enabled, force flag unset. -/
theorem run_force_revert_guard_witness :
    runMigrationBody true false (some true) false = (.error ForceMigrationErrorText, []) :=
  run_force_revert_guard true false (some true) false rfl rfl (by decide) rfl

/-- C1: revert never deletes a folder UID absent from the created-folders
ledger: `DeleteMigratedFolders` issues folder deletions only for UIDs read
from the persisted ledger entry, and `cleanupDashboardAlerts` deletes a
dashboard's new folder only when its UID was found in — and removed
from — the in-memory created-folders list. -/
theorem revert_folder_safety (ledger createdFolders : List String)
    (du : Option DashboardUpgradeRef) (uid : String) :
    (uid ∈ deleteMigratedFoldersCalls ledger → uid ∈ ledger) ∧
    (uid ∈ (cleanupDashboardAlerts createdFolders du).deletedFolderUIDs →
      uid ∈ createdFolders ∧
      (cleanupDashboardAlerts createdFolders du).createdFolders = createdFolders.erase uid) := by
  constructor
  · exact fun h => h
  · match du with
    | none =>
      intro h
      simp [cleanupDashboardAlerts] at h
    | some d =>
      by_cases h1 : d.newFolderUID ≠ "" ∧ d.newFolderUID ≠ d.folderUID
      · by_cases h2 : d.newFolderUID ∈ createdFolders
        · intro h
          simp only [cleanupDashboardAlerts, if_pos h1, if_pos h2, List.mem_singleton] at h
          subst h
          exact ⟨h2, by simp only [cleanupDashboardAlerts, if_pos h1, if_pos h2]⟩
        · intro h
          simp [cleanupDashboardAlerts, h1, h2] at h
      · intro h
        simp [cleanupDashboardAlerts, h1] at h

/-- Witness for C1: a ledger-listed folder is the one removed and deleted. -/
theorem revert_folder_safety_witness :
    "f2" ∈ (["f2"] : List String) ∧
    (cleanupDashboardAlerts ["f2", "f3"] (some ⟨[], "f0", "f2"⟩)).createdFolders =
      (["f2", "f3"] : List String).erase "f2" :=
  ⟨(revert_folder_safety ["f2"] ["f2", "f3"] (some ⟨[], "f0", "f2"⟩) "f2").1 (by decide),
   ((revert_folder_safety ["f2"] ["f2", "f3"] (some ⟨[], "f0", "f2"⟩) "f2").2 (by
      simp [cleanupDashboardAlerts])).2⟩


/-! Helper lemmas for the Prometheus fixup. -/

theorem fixPrometheusBothTypeQuery_eq_self (qd : List (String × Json))
    (h : ¬(instantFlag qd = some true ∧ rangeFlag qd = some true ∧
        isPrometheusQuery qd = .ok true)) :
    fixPrometheusBothTypeQuery qd = qd := by
  cases hi : instantFlag qd with
  | none => simp [fixPrometheusBothTypeQuery, hi]
  | some instant =>
    cases hr : rangeFlag qd with
    | none => simp [fixPrometheusBothTypeQuery, hi, hr]
    | some rng =>
      cases hp : isPrometheusQuery qd with
      | error e => simp [fixPrometheusBothTypeQuery, hi, hr, hp]
      | ok isProm =>
        cases instant with
        | false => simp [fixPrometheusBothTypeQuery, hi, hr]
        | true =>
          cases rng with
          | false => simp [fixPrometheusBothTypeQuery, hi, hr]
          | true =>
            cases isProm with
            | false => simp [fixPrometheusBothTypeQuery, hi, hr, hp]
            | true => exact absurd ⟨hi, hr, hp⟩ h

theorem fixPrometheusBothTypeQuery_both (qd : List (String × Json))
    (h1 : instantFlag qd = some true) (h2 : rangeFlag qd = some true)
    (h3 : isPrometheusQuery qd = .ok true) :
    fixPrometheusBothTypeQuery qd = setKey "instant" (.bool false) qd := by
  unfold fixPrometheusBothTypeQuery
  rw [h1, h2]
  simp [h3]

/-- C4: on a payload whose datasource type is `prometheus` and whose
`instant` and `range` flags both parse to true, the rewriter sets `instant`
to false and leaves every other key/value unchanged; a payload with the
same flags but a non-prometheus datasource type is returned unchanged; and
a payload whose `instant` or `range` field is present but unparsable as a
boolean is returned unchanged. -/
theorem fixPrometheusBothTypeQuery_spec (qd : List (String × Json)) :
    (instantFlag qd = some true → rangeFlag qd = some true →
      isPrometheusQuery qd = .ok true →
      fixPrometheusBothTypeQuery qd = setKey "instant" (.bool false) qd ∧
      lookupKey "instant" (fixPrometheusBothTypeQuery qd) = some (.bool false) ∧
      (∀ k, k ≠ "instant" →
        lookupKey k (fixPrometheusBothTypeQuery qd) = lookupKey k qd)) ∧
    (instantFlag qd = some true → rangeFlag qd = some true →
      isPrometheusQuery qd = .ok false → fixPrometheusBothTypeQuery qd = qd) ∧
    (∀ raw, lookupKey "instant" qd = some raw → unmarshalBool raw = none →
      fixPrometheusBothTypeQuery qd = qd) ∧
    (∀ raw, lookupKey "range" qd = some raw → unmarshalBool raw = none →
      fixPrometheusBothTypeQuery qd = qd) := by
  refine ⟨?_, ?_, ?_, ?_⟩
  · intro h1 h2 h3
    have hset := fixPrometheusBothTypeQuery_both qd h1 h2 h3
    refine ⟨hset, ?_, ?_⟩
    · rw [hset]
      exact lookupKey_setKey_self _ _ _
    · intro k hk
      rw [hset]
      exact lookupKey_setKey_ne _ _ _ _ hk
  · intro h1 h2 h3
    apply fixPrometheusBothTypeQuery_eq_self
    rintro ⟨-, -, hp⟩
    rw [h3] at hp
    simp at hp
  · intro raw hlook hparse
    apply fixPrometheusBothTypeQuery_eq_self
    rintro ⟨hi, -, -⟩
    simp only [instantFlag, hlook] at hi
    rw [hparse] at hi
    exact Option.noConfusion hi
  · intro raw hlook hparse
    apply fixPrometheusBothTypeQuery_eq_self
    rintro ⟨-, hr, -⟩
    simp only [rangeFlag, hlook] at hr
    rw [hparse] at hr
    exact Option.noConfusion hr

/-- Witness for C4 at a concrete Prometheus Both payload, and at the same
payload with a non-prometheus datasource type. -/
theorem fixPrometheusBothTypeQuery_spec_witness :
    fixPrometheusBothTypeQuery promBothPayload =
      setKey "instant" (.bool false) promBothPayload ∧
    lookupKey "instant" (fixPrometheusBothTypeQuery promBothPayload) = some (.bool false) ∧
    fixPrometheusBothTypeQuery
      [("datasource", .obj [("type", .str "other")]),
       ("instant", .bool true), ("range", .bool true)] =
      [("datasource", .obj [("type", .str "other")]),
       ("instant", .bool true), ("range", .bool true)] :=
  ⟨((fixPrometheusBothTypeQuery_spec promBothPayload).1 rfl rfl rfl).1,
   ((fixPrometheusBothTypeQuery_spec promBothPayload).1 rfl rfl rfl).2.1,
   (fixPrometheusBothTypeQuery_spec
      [("datasource", .obj [("type", .str "other")]),
       ("instant", .bool true), ("range", .bool true)]).2.1 rfl rfl rfl⟩

/-- A single no-op query is returned unchanged by the per-query rewrite. -/
theorem migrateQuery_noop (d : AlertQuery)
    (h : d.datasourceUID = expressionDatasourceUID ∨
      (∃ fields, d.model = .obj fields ∧ lookupKey "hide" fields = none ∧
        lookupKey "targetFull" fields = none ∧
        ¬(instantFlag fields = some true ∧ rangeFlag fields = some true ∧
          isPrometheusQuery fields = .ok true))) :
    migrateQuery d = .ok d := by
  rcases h with h | ⟨fields, hm, hhide, htf, hprom⟩
  · simp [migrateQuery, h]
  · unfold migrateQuery
    by_cases hx : d.datasourceUID = expressionDatasourceUID
    · rw [if_pos hx]
    · rw [if_neg hx]
      have h1 : eraseKey "hide" fields = fields :=
        eraseKey_eq_self_of_lookup_none _ _ hhide
      have h2 : fixGraphiteReferencedSubQueries fields = fields := by
        unfold fixGraphiteReferencedSubQueries
        rw [htf]
      have h3 : fixPrometheusBothTypeQuery fields = fields :=
        fixPrometheusBothTypeQuery_eq_self fields hprom
      have hmodel : migrateQueryModel d.model = .ok d.model := by
        rw [hm]
        simp only [migrateQueryModel]
        rw [h1, h2, h3]
      simp only [hmodel]

/-- C5: a query batch in which every non-expression query parses as a JSON
object with no `hide` key, no `targetFull` key, and is not a Prometheus
Both-type query is returned by `migrateAlertRuleQueries` structurally equal
to the input, and every expression query (reserved datasource UID) is
passed through unchanged. -/
theorem migrateAlertRuleQueries_noop (data : List AlertQuery)
    (h : ∀ d ∈ data, d.datasourceUID = expressionDatasourceUID ∨
      (∃ fields, d.model = .obj fields ∧ lookupKey "hide" fields = none ∧
        lookupKey "targetFull" fields = none ∧
        ¬(instantFlag fields = some true ∧ rangeFlag fields = some true ∧
          isPrometheusQuery fields = .ok true))) :
    migrateAlertRuleQueries data = .ok data := by
  induction data with
  | nil => rfl
  | cons d rest ih =>
    have hd := migrateQuery_noop d (h d (List.mem_cons_self d rest))
    have hrest := ih (fun x hx => h x (List.mem_cons_of_mem d hx))
    unfold migrateAlertRuleQueries
    rw [hd, hrest]

/-- Witness for C5 at a concrete batch containing one expression query and
one plain no-op query. -/
theorem migrateAlertRuleQueries_noop_witness :
    migrateAlertRuleQueries noopQueryBatch = .ok noopQueryBatch :=
  migrateAlertRuleQueries_noop noopQueryBatch (by
    intro d hd
    simp only [noopQueryBatch, List.mem_cons, List.not_mem_nil, or_false] at hd
    rcases hd with rfl | rfl
    · left
      rfl
    · right
      refine ⟨[("target", .str "t"), ("refId", .str "A")], rfl, rfl, rfl, ?_⟩
      rintro ⟨hi, -, -⟩
      exact absurd hi (by decide))


/-! Helper lemmas for the secure-settings migration. -/

theorem moveSecureKeys_frame (k : String) :
    ∀ (ks : List String) (st : List (String × Json)) (se : List (String × String)),
      k ∉ ks →
      lookupKey k (moveSecureKeys ks st se).1 = lookupKey k st ∧
      lookupStr k (moveSecureKeys ks st se).2 = lookupStr k se := by
  intro ks
  induction ks with
  | nil => exact fun st se _ => ⟨rfl, rfl⟩
  | cons k' rest ih =>
    intro st se hk
    have hk' : ¬(k = k') := fun h => hk (h ▸ List.mem_cons_self k' rest)
    have hkr : k ∉ rest := fun h => hk (List.mem_cons_of_mem k' h)
    simp only [moveSecureKeys]
    by_cases hskip : secureHasValue k' se = true
    · rw [if_pos hskip]
      exact ih st se hkr
    · rw [if_neg hskip]
      by_cases hsv : mustString (lookupKey k' st) ≠ ""
      · rw [if_pos hsv]
        obtain ⟨a, b⟩ := ih (eraseKey k' st) (setStr k' (mustString (lookupKey k' st)) se) hkr
        exact ⟨a.trans (lookupKey_eraseKey_ne k' k st hk'),
          b.trans (lookupStr_setStr_ne k' k _ se hk')⟩
      · rw [if_neg hsv]
        exact ih st se hkr

theorem moveSecureKeys_existing_secure (k v : String) :
    ∀ (ks : List String) (st : List (String × Json)) (se : List (String × String)),
      lookupStr k se = some v → v ≠ "" →
      lookupKey k (moveSecureKeys ks st se).1 = lookupKey k st ∧
      lookupStr k (moveSecureKeys ks st se).2 = some v := by
  intro ks
  induction ks with
  | nil => exact fun st se hse _ => ⟨rfl, hse⟩
  | cons k' rest ih =>
    intro st se hse hv
    simp only [moveSecureKeys]
    by_cases hk' : k' = k
    · subst hk'
      have hhas : secureHasValue k' se = true := by
        simp [secureHasValue, hse, hv]
      rw [if_pos hhas]
      exact ih st se hse hv
    · have hne : ¬(k = k') := fun h => hk' h.symm
      by_cases hskip : secureHasValue k' se = true
      · rw [if_pos hskip]
        exact ih st se hse hv
      · rw [if_neg hskip]
        by_cases hsv : mustString (lookupKey k' st) ≠ ""
        · rw [if_pos hsv]
          have hse' : lookupStr k (setStr k' (mustString (lookupKey k' st)) se) = some v :=
            (lookupStr_setStr_ne k' k _ se hne).trans hse
          obtain ⟨a, b⟩ := ih (eraseKey k' st) (setStr k' (mustString (lookupKey k' st)) se) hse' hv
          exact ⟨a.trans (lookupKey_eraseKey_ne k' k st hne), b⟩
        · rw [if_neg hsv]
          exact ih st se hse hv

theorem moveSecureKeys_moves (k : String) :
    ∀ (ks : List String) (st : List (String × Json)) (se : List (String × String)),
      k ∈ ks →
      secureHasValue k se = false →
      mustString (lookupKey k st) ≠ "" →
      lookupKey k (moveSecureKeys ks st se).1 = none ∧
      lookupStr k (moveSecureKeys ks st se).2 = some (mustString (lookupKey k st)) := by
  intro ks
  induction ks with
  | nil =>
    intro st se h
    exact absurd h (List.not_mem_nil k)
  | cons k' rest ih =>
    intro st se hmem hse hsv
    simp only [moveSecureKeys]
    by_cases hk' : k' = k
    · subst hk'
      rw [if_neg (by simp [hse]), if_pos hsv]
      obtain ⟨a, b⟩ := moveSecureKeys_existing_secure k' (mustString (lookupKey k' st)) rest
        (eraseKey k' st) (setStr k' (mustString (lookupKey k' st)) se)
        (lookupStr_setStr_self k' _ se) hsv
      exact ⟨a.trans (lookupKey_eraseKey_self k' st), b⟩
    · have hne : ¬(k = k') := fun h => hk' h.symm
      have hmem' : k ∈ rest := by
        rcases List.mem_cons.mp hmem with h | h
        · exact absurd h.symm hk'
        · exact h
      by_cases hskip : secureHasValue k' se = true
      · rw [if_pos hskip]
        exact ih st se hmem' hse hsv
      · rw [if_neg hskip]
        by_cases hsv' : mustString (lookupKey k' st) ≠ ""
        · rw [if_pos hsv']
          have e1 : lookupKey k (eraseKey k' st) = lookupKey k st :=
            lookupKey_eraseKey_ne k' k st hne
          have e2 : lookupStr k (setStr k' (mustString (lookupKey k' st)) se) = lookupStr k se :=
            lookupStr_setStr_ne k' k _ se hne
          have hse2 : secureHasValue k (setStr k' (mustString (lookupKey k' st)) se) = false := by
            unfold secureHasValue at hse ⊢
            rw [e2]
            exact hse
          obtain ⟨a, b⟩ := ih (eraseKey k' st) (setStr k' (mustString (lookupKey k' st)) se)
            hmem' hse2 (by rw [e1]; exact hsv)
          rw [e1] at b
          exact ⟨a, b⟩
        · rw [if_neg hsv']
          exact ih st se hmem' hse hsv

/-- C8: for every legacy channel, `migrateSettingsToSecureSettings` moves a
plaintext general-settings value into secure settings only for the keys in
the fixed per-type list `secureKeysToMigrate`, and only when the key has no
non-empty already-decrypted secure value (the plaintext is then removed
from general settings); keys outside the list, and keys whose secure value
already exists, keep their general-settings entry unchanged. -/
theorem migrateSettingsToSecureSettings_frame (encrypt : String → String) (chanType : String)
    (m : List (String × Json)) (se : List (String × String)) (k : String)
    (st' : List (String × Json)) (se' : List (String × String))
    (hres : migrateSettingsToSecureSettings encrypt chanType (.obj m) se = .ok (st', se')) :
    (k ∉ secureKeysToMigrate chanType →
      lookupKey k st' = lookupKey k m ∧
      lookupStr k se' = (lookupStr k se).map encrypt) ∧
    (∀ v, lookupStr k se = some v → v ≠ "" →
      lookupKey k st' = lookupKey k m ∧ lookupStr k se' = some (encrypt v)) ∧
    (k ∈ secureKeysToMigrate chanType → secureHasValue k se = false →
      mustString (lookupKey k m) ≠ "" →
      lookupKey k st' = none ∧
      lookupStr k se' = some (encrypt (mustString (lookupKey k m)))) := by
  simp only [migrateSettingsToSecureSettings, Except.ok.injEq, Prod.mk.injEq] at hres
  obtain ⟨h1, h2⟩ := hres
  subst h1
  subst h2
  refine ⟨?_, ?_, ?_⟩
  · intro hk
    obtain ⟨a, b⟩ := moveSecureKeys_frame k (secureKeysToMigrate chanType) m se hk
    refine ⟨a, ?_⟩
    rw [lookupStr_mapValues, b]
  · intro v hv hv'
    obtain ⟨a, b⟩ := moveSecureKeys_existing_secure k v (secureKeysToMigrate chanType) m se hv hv'
    refine ⟨a, ?_⟩
    rw [lookupStr_mapValues, b]
    rfl
  · intro hk hse hsv
    obtain ⟨a, b⟩ := moveSecureKeys_moves k (secureKeysToMigrate chanType) m se hk hse hsv
    refine ⟨a, ?_⟩
    rw [lookupStr_mapValues, b]
    rfl

/-- Witness for C8: a slack channel whose plaintext `url` moves into secure
settings while the unlisted `other` field stays put. -/
theorem migrateSettingsToSecureSettings_frame_witness :
    (lookupKey "other" [("other", Json.str "o")] =
      lookupKey "other" [("url", Json.str "u"), ("other", Json.str "o")]) ∧
    lookupKey "url" [("other", Json.str "o")] = none ∧
    lookupStr "url" [("url", "u")] = some "u" :=
  ⟨(((migrateSettingsToSecureSettings_frame (fun s => s) "slack"
      [("url", Json.str "u"), ("other", Json.str "o")] [] "other"
      [("other", Json.str "o")] [("url", "u")] rfl).1) (by decide)).1,
   ((migrateSettingsToSecureSettings_frame (fun s => s) "slack"
      [("url", Json.str "u"), ("other", Json.str "o")] [] "url"
      [("other", Json.str "o")] [("url", "u")] rfl).2.2 (by decide) rfl (by decide)).1,
   ((migrateSettingsToSecureSettings_frame (fun s => s) "slack"
      [("url", Json.str "u"), ("other", Json.str "o")] [] "url"
      [("other", Json.str "o")] [("url", "u")] rfl).2.2 (by decide) rfl (by decide)).2⟩


/-- C3 (amended): on a unique-title constraint violation the insert loop of
`migrateAndSaveAlerts` retries exactly once, with a title forcibly
deduplicated via `Deduplicator.deduplicate` (the call trace for the item is
exactly the original insert followed by the single retry); a successful
first insert or retry lets the loop continue with the remaining pairs, but
a failed retry makes the whole call return an error: no further sibling is
inserted and the already-issued sibling inserts are the only ones kept. -/
theorem insertRetry_behavior (insert : RuleRef → InsertOutcome) (uids : Nat → GoStr)
    (dedupSet : Deduplicator) (p : PairRef) (rest : List PairRef) (i : Nat) (rule : RuleRef)
    (hp : p.rule = some rule) :
    (insert rule = .ok →
      insertRulesLoop insert uids dedupSet (p :: rest) i =
        (insertRulesLoop insert uids dedupSet rest (i + 1)).map (fun r =>
          ⟨rule :: r.inserted, rule :: r.calls, r.outcome.map (p :: ·)⟩)) ∧
    (∀ t, insert rule = .uniqueViolation →
      dedupSet.deduplicate rule.title (uids i) = some t →
      (insert { rule with title := t } = .ok →
        insertRulesLoop insert uids dedupSet (p :: rest) i =
          (insertRulesLoop insert uids dedupSet rest (i + 1)).map (fun r =>
            ⟨{ rule with title := t } :: r.inserted,
              rule :: { rule with title := t } :: r.calls,
              r.outcome.map (PairRef.mk (some { rule with title := t }) :: ·)⟩)) ∧
      (insert { rule with title := t } ≠ .ok →
        insertRulesLoop insert uids dedupSet (p :: rest) i =
          some ⟨[], [rule, { rule with title := t }],
            .error "failed to insert alert rules"⟩)) := by
  constructor
  · intro hok
    simp only [insertRulesLoop, hp, hok]
  · intro t huniq hded
    constructor
    · intro hok
      simp only [insertRulesLoop, hp, huniq, hded, hok]
    · intro hfail
      cases hout : insert { rule with title := t } with
      | ok => exact absurd hout hfail
      | uniqueViolation => simp only [insertRulesLoop, hp, huniq, hded, hout]
      | otherError => simp only [insertRulesLoop, hp, huniq, hded, hout]

/-- Witness for the amended C3: a single pair whose rule violates the
unique-title constraint on both the original insert and the one retry; the
loop issues exactly those two insert calls and returns the batch error. -/
theorem insertRetry_behavior_witness :
    insertRulesLoop insertOracle uidStream titleDedup [⟨some ⟨1, ['c']⟩⟩] 0 =
      some ⟨[], [⟨1, ['c']⟩, ⟨1, ['c', '_', 'u']⟩], .error "failed to insert alert rules"⟩ :=
  ((insertRetry_behavior insertOracle uidStream titleDedup ⟨some ⟨1, ['c']⟩⟩ [] 0
    ⟨1, ['c']⟩ rfl).2 ['c', '_', 'u'] rfl rfl).2 (by decide)

/-- Counterexample to C3 as stated: with a batch of two pairs whose first
rule hits the unique-title constraint on both the insert and the single
retry, the loop returns an error for the whole call — the failure is not
recorded as only that alert's error, the sibling rule (id 2) is never
inserted (the inserted list is empty), and no pair list is produced, so the
failure is fatal to the whole batch, not merely to the item. -/
theorem insertRetry_counterexample :
    twoPairBatch = [⟨some ⟨1, ['a']⟩⟩, ⟨some ⟨2, ['b']⟩⟩] ∧
    insertRulesLoop insertOracle uidStream titleDedup twoPairBatch 0 =
      some ⟨[], [⟨1, ['a']⟩, ⟨1, ['a', '_', 'u']⟩],
        .error "failed to insert alert rules"⟩ :=
  ⟨rfl, rfl⟩


end GrafanaMigration
